import Mathlib

/-!
# Verification of the mmtt-web client-side trajectory pipeline

Shallow embedding of the trajectory-cleaning and polling logic of the
mmtt-web repository:

* `cleanAndSortHistory` (frontend/src/App.jsx) — the trajectory cleaner;
* `parseTimestampCandidate`, `extractServerDateHeader`,
  `fetchLatestLocation`, `fetchHistory` (frontend/src/api/trackingapp.js);
* `loadData`, `saveLocalHistory`, `loadLocalHistory` (frontend/src/App.jsx)
  — the refresh cycle and the localStorage cache.

Modelling conventions:

* JavaScript numbers are modelled by `JNum`: a finite rational, `NaN`, or
  an infinity.  `Number(x)` coercions the code performs on raw field
  values are modelled by typing the corresponding field with the
  coercion's result.  In particular the map step
  `ts: p.ts == null ? null : Number(p.ts)` gives a point's timestamp the
  type `Option JNum`: null, or a number that may well be `NaN` (a
  malformed raw value), and such a `NaN` passes the timestamp-validity
  filter because every JavaScript comparison against `NaN` is false.
* Subtraction and the comparisons on `JNum` follow the JavaScript
  semantics (`NaN` propagates; comparisons involving `NaN` are false).
* The haversine distance `earthKm` of App.jsx is a transcendental
  floating-point computation; it is modelled as an explicit parameter
  `dist : Pt → Pt → ℚ` of the cleaner, and the theorems about the spike
  filter are proved for every such distance function, hence in particular
  for whatever value the floating-point haversine returns.
* `Array.prototype.sort` with the comparator `(a, b) => a.ts - b.ts` is
  modelled by the stable `List.mergeSort` with the corresponding
  less-or-equal test (`SortCompare` coerces an `NaN` comparator result to
  `+0`).  For inputs on which the comparator is consistent this is
  exactly what ECMA-262 specifies (a stable sort); when `NaN` timestamps
  make the comparator inconsistent ECMA-262 leaves the order
  implementation-defined, and the embedding fixes the standard stable
  top-down merge sort as the modelled behaviour — theorems about that
  regime are relative to this compliant model, and are flagged as such.
* `Date.parse` is host-defined; it is modelled as an explicit parameter
  `dp : String → Option ℤ` returning epoch milliseconds.
-/

namespace MMTT

/-- A JavaScript number: finite rational, `NaN`, or an infinity. -/
inductive JNum where
  | nan : JNum
  | inf : JNum
  | ninf : JNum
  | fin (q : ℚ) : JNum
deriving DecidableEq, Repr

/-- `Number.isFinite`. -/
def JNum.isFinite : JNum → Bool
  | .fin _ => true
  | _ => false

/-- `Number.isNaN`. -/
def JNum.isNaN : JNum → Bool
  | .nan => true
  | _ => false

/-- JavaScript subtraction: `NaN` propagates, and the indeterminate
`Infinity - Infinity` forms give `NaN`. -/
def JNum.sub : JNum → JNum → JNum
  | .nan, _ => .nan
  | _, .nan => .nan
  | .inf, .inf => .nan
  | .inf, _ => .inf
  | .ninf, .ninf => .nan
  | .ninf, _ => .ninf
  | .fin _, .inf => .ninf
  | .fin _, .ninf => .inf
  | .fin p, .fin q => .fin (p - q)

/-- JavaScript `<`: every comparison involving `NaN` is false. -/
def JNum.lt : JNum → JNum → Bool
  | .nan, _ => false
  | _, .nan => false
  | .ninf, .ninf => false
  | .ninf, _ => true
  | _, .ninf => false
  | .inf, _ => false
  | _, .inf => true
  | .fin p, .fin q => decide (p < q)

/-- JavaScript `<=`: false when either side is `NaN`, otherwise the
negation of the reversed `<`. -/
def JNum.leb : JNum → JNum → Bool
  | .nan, _ => false
  | _, .nan => false
  | a, b => !(JNum.lt b a)

/-- A normalized point as built by the `history.map` step of
`cleanAndSortHistory`: `lat` and `lon` hold the value of `Number(p.lat)` /
`Number(p.lon)`, and `ts` is `null` or the value of `Number(p.ts)` —
which is `NaN` when the raw `ts` is malformed. -/
structure Pt where
  lat : JNum
  lon : JNum
  ts : Option JNum
deriving DecidableEq, Repr

/-- The options object of `cleanAndSortHistory`, with the source defaults. -/
structure CleanOpts where
  minYear : ℚ := 2009
  jumpKmThreshold : ℚ := 200
  maxFutureSec : ℚ := 24 * 3600
deriving DecidableEq, Repr

/-- The numeric value of a point's timestamp.  Sorting and spike
rejection run after the filter that removes null timestamps, so the
default (the JavaScript coercion `ToNumber(null) = 0`) is never
observed. -/
def tsv (p : Pt) : JNum := p.ts.getD (.fin 0)

/-- The coordinate filter:
`Number.isFinite(p.lat) && Number.isFinite(p.lon)`. -/
def coordOk (p : Pt) : Bool := p.lat.isFinite && p.lon.isFinite

/-- The timestamp validity filter of `cleanAndSortHistory`, with the
exact source arithmetic and JavaScript comparison semantics: a point is
dropped when `ts` is null, when `ts < minYear * 365 * 24 * 3600`, or
when `ts > nowSec + maxFutureSec`.  A `NaN` timestamp fails both
comparisons and is therefore KEPT. -/
def tsKeep (opts : CleanOpts) (nowSec : ℚ) (p : Pt) : Bool :=
  match p.ts with
  | none => false
  | some t =>
    if JNum.lt t (.fin (opts.minYear * 365 * 24 * 3600)) then false
    else if JNum.lt (.fin (nowSec + opts.maxFutureSec)) t then false
    else true

/-- The sort comparator `(a, b) => a.ts - b.ts`, as the less-or-equal
test the stable sort consumes: `a` stays before `b` unless the comparator
value is positive (`SortCompare` turns an `NaN` comparator result into
`+0`, so `NaN` ties with everything). -/
def sortLe (a b : Pt) : Bool :=
  !(JNum.lt (.fin 0) (JNum.sub (tsv a) (tsv b)))

/-- One iteration of the spike-rejection loop: `cleaned` is the running
array, `p` the candidate.  An empty `cleaned` always takes the point;
otherwise the candidate is dropped exactly when its distance to the last
accepted point exceeds the threshold and the elapsed time
`dt = p.ts - prev.ts` satisfies `dt < 60` (false when `dt` is `NaN`). -/
def spikeStep (dist : Pt → Pt → ℚ) (thr : ℚ) (cleaned : List Pt) (p : Pt) :
    List Pt :=
  match cleaned.getLast? with
  | none => cleaned ++ [p]
  | some prev =>
    if dist prev p > thr ∧
        JNum.lt (JNum.sub (tsv p) (tsv prev)) (.fin 60) then cleaned
    else cleaned ++ [p]

/-- The spike-rejection loop of `cleanAndSortHistory`. -/
def spikeFilter (dist : Pt → Pt → ℚ) (thr : ℚ) (l : List Pt) : List Pt :=
  l.foldl (spikeStep dist thr) []

/-- The body of `cleanAndSortHistory` on an array of already-normalized
points: coordinate filter, timestamp filter, sort by `ts`, spike loop. -/
def cleanCore (dist : Pt → Pt → ℚ) (opts : CleanOpts) (nowSec : ℚ)
    (history : List Pt) : List Pt :=
  spikeFilter dist opts.jumpKmThreshold
    (((history.filter coordOk).filter (tsKeep opts nowSec)).mergeSort sortLe)

/-- The JavaScript exception raised by reading a property of `null`. -/
inductive JsErr where
  | typeError : JsErr
deriving DecidableEq, Repr

/-- An element of the raw input array: `null`/`undefined` (reading `.lat`
throws), or an object whose field reads succeed; the object is recorded
through the coercions the `map` step applies to it (so a malformed `ts`
appears as `some JNum.nan`). -/
inductive RawElem where
  | nullish : RawElem
  | objv (o : Pt) : RawElem
deriving DecidableEq, Repr

/-- The input value passed to `cleanAndSortHistory`: any non-array value,
or an array of elements. -/
inductive CleanInput where
  | notArray : CleanInput
  | array (l : List RawElem) : CleanInput
deriving DecidableEq, Repr

/-- The `history.map((p) => ({lat: Number(p.lat), ...}))` step: it throws
a `TypeError` at the first `null`/`undefined` element. -/
def jsMapPoints : List RawElem → Except JsErr (List Pt)
  | [] => .ok []
  | .nullish :: _ => .error .typeError
  | .objv o :: rest => (jsMapPoints rest).map (o :: ·)

/-- `cleanAndSortHistory(history, opts)` from App.jsx.  `nowSec` is
`Math.floor(Date.now() / 1000)`; `dist` stands for the haversine
`earthKm`.  A non-array input returns `[]` immediately; mapping over an
array containing a nullish element throws. -/
def cleanAndSortHistory (dist : Pt → Pt → ℚ) (opts : CleanOpts)
    (nowSec : ℚ) : CleanInput → Except JsErr (List Pt)
  | .notArray => .ok []
  | .array l => (jsMapPoints l).map (cleanCore dist opts nowSec)

/-- A timestamp candidate, as encountered by `parseTimestampCandidate`:
`null`/`undefined`, a finite number, the number `NaN`, a string, or any
other shape (object, array, boolean). -/
inductive TsCandidate where
  | null : TsCandidate
  | num (q : ℚ) : TsCandidate
  | nanNum : TsCandidate
  | str (s : String) : TsCandidate
  | other : TsCandidate
deriving DecidableEq, Repr

/-- The test `/^\d+$/.test(val)`: one or more digits, nothing else. -/
def isDigitString (s : String) : Bool :=
  !s.data.isEmpty && s.data.all Char.isDigit

/-- The numeric branch of `parseTimestampCandidate`: milliseconds above
`1e12`, seconds above `1e9`, otherwise implausible. -/
def parseNumTs (q : ℚ) : Option ℤ :=
  if q > 10 ^ 12 then some ⌊q / 1000⌋
  else if q ≥ 10 ^ 9 then some ⌊q⌋
  else none

/-- `parseTimestampCandidate` from trackingapp.js.  `dp` models the
host-defined `Date.parse`, returning epoch milliseconds.  A digit-only
string is converted by `Number` and re-enters the numeric rules; `NaN`
falls through both numeric comparisons and yields `null`. -/
def parseTimestampCandidate (dp : String → Option ℤ) :
    TsCandidate → Option ℤ
  | .null => none
  | .num q => parseNumTs q
  | .nanNum => none
  | .str s =>
    if isDigitString s then parseNumTs ((s.toNat?.getD 0 : ℕ) : ℚ)
    else
      match dp s with
      | some ms => some ⌊(ms : ℚ) / 1000⌋
      | none => none
  | .other => none

/-- `extractServerDateHeader`: `hdrMs` is the parsed `Date` response
header in epoch milliseconds, `none` when the header is missing or does
not parse. -/
def extractServerDateHeader (hdrMs : Option ℤ) : Option ℤ :=
  match hdrMs with
  | none => none
  | some ms => some ⌊(ms : ℚ) / 1000⌋

/-- The outcome of an HTTP request as seen by `safeFetchJson`: a parsed
body, a non-success status, or a thrown fetch error (network failure or
the `AbortController` timeout). -/
inductive Transport (α : Type) where
  | ok (body : α) : Transport α
  | httpError (code : ℕ) : Transport α
  | netError (msg : String) : Transport α
deriving DecidableEq, Repr

/-- The `??` chain over timestamp candidate fields: first non-nullish
candidate, else `null`. -/
def firstNonNull : List TsCandidate → TsCandidate
  | [] => .null
  | .null :: rest => firstNonNull rest
  | c :: _ => c

/-- A raw history element from the service: `lat`/`lon` are `null` or the
value `Number` coerces them to; the four fields feeding the timestamp
`??` chain. -/
structure HRaw where
  lat : Option JNum
  lon : Option JNum
  ts : TsCandidate
  timestamp : TsCandidate
  time : TsCandidate
  server_time : TsCandidate
deriving DecidableEq, Repr

/-- The per-point normalization inside `fetchHistory`: a parsed
timestamp is a plain (finite) number of epoch seconds. -/
def histPoint (dp : String → Option ℤ) (r : HRaw) : Pt :=
  { lat := match r.lat with | none => .nan | some v => v
    lon := match r.lon with | none => .nan | some v => v
    ts := (parseTimestampCandidate dp
      (firstNonNull [r.ts, r.timestamp, r.time, r.server_time])).map
        (fun n => JNum.fin (n : ℚ)) }

/-- `fetchHistory` from trackingapp.js.  The transport argument is the
outcome of `safeFetchJson` (body `none` models a nullish `resp.json`; the
body list models whichever of `data` / `data.coordinates` / `data.points`
/ `data.data` / `data.history` is the array, `none` when none is).  Every
failure path returns the empty array. -/
def fetchHistory (dp : String → Option ℤ) (deviceId : String)
    (t : Transport (Option (List HRaw))) : List Pt :=
  if deviceId.isEmpty then []
  else
    match t with
    | .netError _ => []
    | .httpError _ => []
    | .ok none => []
    | .ok (some arr) =>
      (arr.map (histPoint dp)).filter (fun p => !p.lat.isNaN && !p.lon.isNaN)

/-- The JSON body of a `latest` response: coerced `lat`/`lon` (or `null`),
optional numeric extras, the `sos` truthiness, and the five fields feeding
the timestamp candidate `??` chain. -/
structure LatestBody where
  device_id : Option String
  lat : Option JNum
  lon : Option JNum
  speed : Option JNum
  battery : Option JNum
  sos : Bool
  timestamp : TsCandidate
  ts : TsCandidate
  time : TsCandidate
  server_time : TsCandidate
  date : TsCandidate
deriving DecidableEq, Repr

/-- The object `fetchLatestLocation` resolves with: the spread body with
`lat`/`lon` re-coerced and `timestamp` always set to an integer. -/
structure LatestOut where
  device_id : Option String
  lat : Option JNum
  lon : Option JNum
  speed : Option JNum
  battery : Option JNum
  sos : Bool
  timestamp : ℤ
deriving DecidableEq, Repr

/-- `fetchLatestLocation` from trackingapp.js.  `hdrMs` is the parsed
server `Date` header (milliseconds) and `nowMs` is `Date.now()`.  A 404
resolves with `null`; any other non-success status or a thrown fetch
error rejects.  The timestamp is the first of: parsed body candidate,
server header, local clock. -/
def fetchLatestLocation (dp : String → Option ℤ) (deviceId : String)
    (t : Transport (Option LatestBody)) (hdrMs : Option ℤ) (nowMs : ℤ) :
    Except String (Option LatestOut) :=
  if deviceId.isEmpty then .ok none
  else
    match t with
    | .netError msg => .error msg
    | .httpError c =>
      if c = 404 then .ok none
      else .error ("fetchLatestLocation HTTP " ++ toString c)
    | .ok none => .ok none
    | .ok (some data) =>
      let cand := firstNonNull
        [data.timestamp, data.ts, data.time, data.server_time, data.date]
      let bodyTs := parseTimestampCandidate dp cand
      let withHeader := match bodyTs with
        | none => extractServerDateHeader hdrMs
        | some v => some v
      let finalTs : ℤ := match withHeader with
        | none => ⌊(nowMs : ℚ) / 1000⌋
        | some v => v
      .ok (some { device_id := data.device_id, lat := data.lat,
                  lon := data.lon, speed := data.speed,
                  battery := data.battery, sos := data.sos,
                  timestamp := finalTs })

/-- The normalized latest fix the App displays. -/
structure NormLatest where
  device_id : String
  lat : JNum
  lon : JNum
  speed : Option JNum
  battery : Option JNum
  sos : Bool
  timestamp : Option JNum
deriving DecidableEq, Repr

/-- `Number` applied to a nullable number: `Number(null)` is `0`. -/
def jnumOfNullable : Option JNum → JNum
  | none => .fin 0
  | some v => v

/-- The `normalizedLatest` object built in `loadData` (App.jsx lines
296-306): `device_id` falls back to the requested id, `lat`/`lon` are
re-coerced with `Number`, and `timestamp` is already a number coming from
`fetchLatestLocation`. -/
def normalizeLatest (deviceId : String) (l : LatestOut) : NormLatest :=
  { device_id := l.device_id.getD deviceId
    lat := jnumOfNullable l.lat
    lon := jnumOfNullable l.lon
    speed := l.speed
    battery := l.battery
    sos := l.sos
    timestamp := some (.fin (l.timestamp : ℚ)) }

/-- The latest fix synthesized from the last cleaned point when the
service supplied none (App.jsx lines 337-348). -/
def synthLatest (deviceId : String) (last : Pt) : NormLatest :=
  { device_id := deviceId
    lat := last.lat
    lon := last.lon
    speed := none
    battery := none
    sos := false
    timestamp := last.ts }

/-- The component state touched by a refresh cycle, plus the
localStorage store (`track_history_` keyed per device, modelled as a map
from device id to the stored array). -/
structure UiState where
  activeDevice : String
  latestLocation : Option NormLatest
  history : List Pt
  loading : Bool
  error : Option String
  store : String → List Pt

/-- The environment of one refresh cycle: the device id captured when the
cycle started, the settled results of the two requests (`fetchHistory`
never rejects, so its result is a plain list), the mounted flag read in
the `finally` block, and the clock as read inside `cleanAndSortHistory`. -/
structure Env where
  deviceId : String
  latest : Except String (Option LatestOut)
  history : List Pt
  mounted : Bool
  nowSec : ℚ

/-- `loadLocalHistory` from App.jsx: an empty device id, a missing entry,
or corrupt data all yield `[]`. -/
def loadLocalHistory (store : String → List Pt) (deviceId : String) :
    List Pt :=
  if deviceId.isEmpty then [] else store deviceId

/-- `saveLocalHistory` from App.jsx: overwrite the entry for the device;
a falsy device id writes nothing. -/
def saveLocalHistory (store : String → List Pt) (deviceId : String)
    (arr : List Pt) : String → List Pt :=
  if deviceId.isEmpty then store
  else fun d => if d = deviceId then arr else store d

/-- The guard `if (!deviceId.trim())` at the top of `loadData`: the
trimmed device id is empty exactly when the id consists solely of
whitespace. -/
def trimEmpty (deviceId : String) : Bool :=
  (deviceId.data.dropWhile Char.isWhitespace).isEmpty

/-- The `normalizedHistory` computed in `loadData` (App.jsx lines
311-328): the fetched points when non-empty (remapped field by field,
`ts ?? timestamp ?? null` resolving to the existing `ts`), otherwise the
localStorage fallback. -/
def cycleHistory (env : Env) (store : String → List Pt) : List Pt :=
  if env.history ≠ [] then
    env.history.map (fun p => { lat := p.lat, lon := p.lon, ts := p.ts })
  else
    let fromLS := loadLocalHistory store env.deviceId
    if fromLS ≠ [] then fromLS else []

/-- The cleaned trajectory a cycle commits: `cleanAndSortHistory` with
default options on the cycle's normalized history. -/
def cycleCleaned (dist : Pt → Pt → ℚ) (env : Env)
    (store : String → List Pt) : List Pt :=
  cleanCore dist {} env.nowSec (cycleHistory env store)

/-- The latest fix a successful cycle displays: the service-supplied one
when present, otherwise one synthesized from the last cleaned point (the
`if (!latest && cleaned.length > 0)` block). -/
def commitLatest (deviceId : String) (latestOpt : Option LatestOut)
    (cleaned : List Pt) : Option NormLatest :=
  match latestOpt with
  | some l => some (normalizeLatest deviceId l)
  | none =>
    match cleaned.getLast? with
    | some last => some (synthLatest deviceId last)
    | none => none

/-- `loadData` from App.jsx, as the state transformation one refresh
cycle applies once both requests settle.  An empty (trimmed) device id
only sets an error.  A rejected `Promise.all` (only the latest-fix
request can reject) lands in the `catch` block: cleared display, error
message, loading reset.  Otherwise the cycle cleans, persists a
non-empty result, synthesizes a latest fix if needed, and commits —
without consulting `prev.activeDevice`. -/
def loadData (dist : Pt → Pt → ℚ) (env : Env) (prev : UiState) : UiState :=
  if trimEmpty env.deviceId then
    { prev with error := some "Please enter a device ID" }
  else
    match env.latest with
    | .error msg =>
      { activeDevice := prev.activeDevice
        latestLocation := none
        history := []
        loading := !env.mounted
        error := some ("Failed to load data: " ++ msg)
        store := prev.store }
    | .ok latestOpt =>
      let cleaned := cycleCleaned dist env prev.store
      let latestFinal := commitLatest env.deviceId latestOpt cleaned
      let store' :=
        if cleaned ≠ [] then saveLocalHistory prev.store env.deviceId cleaned
        else prev.store
      { activeDevice := prev.activeDevice
        latestLocation := latestFinal
        history := cleaned
        loading := !env.mounted
        error := none
        store := store' }

/-! ## Lemmas about the spike-rejection loop -/

/-- The spike loop from the point of view of the running last-accepted
point `prev`: a candidate within threshold-violating distance and under
60 s elapsed is skipped (keeping `prev`), otherwise it is kept and
becomes the comparison baseline. -/
def spikeAux (dist : Pt → Pt → ℚ) (thr : ℚ) (prev : Pt) :
    List Pt → List Pt
  | [] => []
  | p :: rest =>
    if dist prev p > thr ∧
        JNum.lt (JNum.sub (tsv p) (tsv prev)) (.fin 60) then
      spikeAux dist thr prev rest
    else p :: spikeAux dist thr p rest

/-- The adjacency relation the spike loop enforces between consecutive
kept points. -/
def okRel (dist : Pt → Pt → ℚ) (thr : ℚ) (a b : Pt) : Prop :=
  ¬(dist a b > thr ∧ JNum.lt (JNum.sub (tsv b) (tsv a)) (.fin 60))

theorem foldl_spikeStep (dist : Pt → Pt → ℚ) (thr : ℚ) :
    ∀ (l acc : List Pt) (prev : Pt), acc.getLast? = some prev →
      l.foldl (spikeStep dist thr) acc = acc ++ spikeAux dist thr prev l := by
  intro l
  induction l with
  | nil => intro acc prev _; simp [spikeAux]
  | cons p rest ih =>
    intro acc prev h
    rw [List.foldl_cons]
    by_cases hc : dist prev p > thr ∧
        JNum.lt (JNum.sub (tsv p) (tsv prev)) (.fin 60)
    · have hstep : spikeStep dist thr acc p = acc := by
        simp [spikeStep, h, hc]
      rw [hstep, ih acc prev h, spikeAux, if_pos hc]
    · have hstep : spikeStep dist thr acc p = acc ++ [p] := by
        simp [spikeStep, h, hc]
      rw [hstep, ih (acc ++ [p]) p (List.getLast?_concat acc),
        spikeAux, if_neg hc, List.append_assoc]
      rfl

theorem spikeFilter_cons (dist : Pt → Pt → ℚ) (thr : ℚ) (p : Pt)
    (l : List Pt) :
    spikeFilter dist thr (p :: l) = p :: spikeAux dist thr p l := by
  have hstep : spikeStep dist thr [] p = [p] := by simp [spikeStep]
  rw [spikeFilter, List.foldl_cons, hstep,
    foldl_spikeStep dist thr l [p] p rfl]
  rfl

theorem spikeAux_sublist (dist : Pt → Pt → ℚ) (thr : ℚ) :
    ∀ (l : List Pt) (prev : Pt),
      List.Sublist (spikeAux dist thr prev l) l := by
  intro l
  induction l with
  | nil => intro _; exact List.Sublist.refl _
  | cons p rest ih =>
    intro prev
    rw [spikeAux]
    by_cases hc : dist prev p > thr ∧
        JNum.lt (JNum.sub (tsv p) (tsv prev)) (.fin 60)
    · rw [if_pos hc]; exact (ih prev).trans (List.sublist_cons_self p rest)
    · rw [if_neg hc]; exact List.Sublist.cons₂ p (ih p)

theorem spikeAux_chain (dist : Pt → Pt → ℚ) (thr : ℚ) :
    ∀ (l : List Pt) (prev : Pt),
      List.Chain (okRel dist thr) prev (spikeAux dist thr prev l) := by
  intro l
  induction l with
  | nil => intro _; exact List.Chain.nil
  | cons p rest ih =>
    intro prev
    rw [spikeAux]
    by_cases hc : dist prev p > thr ∧
        JNum.lt (JNum.sub (tsv p) (tsv prev)) (.fin 60)
    · rw [if_pos hc]; exact ih prev
    · rw [if_neg hc]; exact List.Chain.cons hc (ih p)

theorem spikeAux_of_chain (dist : Pt → Pt → ℚ) (thr : ℚ) :
    ∀ (l : List Pt) (prev : Pt),
      List.Chain (okRel dist thr) prev l → spikeAux dist thr prev l = l := by
  intro l
  induction l with
  | nil => intro _ _; rfl
  | cons p rest ih =>
    intro prev h
    cases h with
    | cons hok htail =>
      rw [spikeAux, if_neg hok, ih p htail]

/-- The spike loop keeps a list whose adjacent pairs already satisfy the
jump condition unchanged. -/
theorem spikeFilter_of_chain' (dist : Pt → Pt → ℚ) (thr : ℚ)
    (l : List Pt) (h : List.Chain' (okRel dist thr) l) :
    spikeFilter dist thr l = l := by
  cases l with
  | nil => rfl
  | cons p rest =>
    rw [spikeFilter_cons, spikeAux_of_chain dist thr rest p h]

/-- A distance function that never exceeds the threshold makes the spike
loop the identity. -/
theorem spikeFilter_of_not_far (dist : Pt → Pt → ℚ) (thr : ℚ)
    (h : ∀ a b, ¬dist a b > thr) (l : List Pt) :
    spikeFilter dist thr l = l := by
  refine spikeFilter_of_chain' dist thr l ?_
  cases l with
  | nil => trivial
  | cons p rest =>
    show List.Chain (okRel dist thr) p rest
    induction rest generalizing p with
    | nil => exact List.Chain.nil
    | cons q rest ih =>
      exact List.Chain.cons (fun hc => h p q hc.1) (ih q)

/-! ## The sort comparator -/

theorem sortLe_total : ∀ (a b : Pt), sortLe a b || sortLe b a := by
  intro a b
  rw [sortLe, sortLe]
  cases hA : tsv a <;> cases hB : tsv b <;>
    simp [JNum.sub, JNum.lt]
  · rename_i p q
    rcases le_total p q with h | h
    · left; linarith
    · right; linarith

/-- The rational sort key: the value of a finite timestamp, an arbitrary
default elsewhere.  Used to reason about the sort on lists whose members
all carry finite timestamps. -/
def tsq (p : Pt) : ℚ :=
  match tsv p with
  | .fin q => q
  | _ => 0

/-- The comparator restricted to finite timestamps, as a total transitive
less-or-equal test on the rational keys. -/
def leQ (a b : Pt) : Bool := tsq a ≤ tsq b

theorem leQ_trans : ∀ (a b c : Pt), leQ a b → leQ b c → leQ a c := by
  intro a b c hab hbc
  simp only [leQ, decide_eq_true_eq] at *
  exact le_trans hab hbc

theorem leQ_total : ∀ (a b : Pt), leQ a b || leQ b a := by
  intro a b
  simp only [leQ, Bool.or_eq_true, decide_eq_true_eq]
  exact le_total (tsq a) (tsq b)

/-- A point with a finite timestamp. -/
def finTs (p : Pt) : Prop := ∃ q, p.ts = some (.fin q)

theorem sortLe_eq_leQ (a b : Pt) (ha : finTs a) (hb : finTs b) :
    sortLe a b = leQ a b := by
  obtain ⟨qa, hqa⟩ := ha
  obtain ⟨qb, hqb⟩ := hb
  have hva : tsv a = .fin qa := by rw [tsv, hqa]; rfl
  have hvb : tsv b = .fin qb := by rw [tsv, hqb]; rfl
  rw [sortLe, leQ, tsq, tsq, hva, hvb]
  simp only [JNum.sub, JNum.lt]
  by_cases h : qa ≤ qb
  · have h1 : ¬(0 < qa - qb) := by linarith
    simp [h, h1]
  · have h1 : 0 < qa - qb := by
      have := lt_of_not_le h
      linarith
    simp [h, h1]

/-! ## Comparator congruence for the merge sort -/

theorem merge_congr (le le' : Pt → Pt → Bool) :
    ∀ (xs ys : List Pt),
      (∀ x ∈ xs, ∀ y ∈ ys, le x y = le' x y) →
      List.merge xs ys le = List.merge xs ys le' := by
  intro xs
  induction xs with
  | nil => intro ys _; simp
  | cons x xs ihx =>
    intro ys
    induction ys with
    | nil => intro _; simp
    | cons y ys ihy =>
      intro h
      rw [List.cons_merge_cons, List.cons_merge_cons]
      have hxy : le x y = le' x y :=
        h x (List.mem_cons_self x xs) y (List.mem_cons_self y ys)
      by_cases hc : le x y = true
      · rw [if_pos hc, if_pos (hxy ▸ hc)]
        congr 1
        exact ihx (y :: ys) (fun a ha b hb => h a (List.mem_cons_of_mem x ha) b hb)
      · rw [if_neg hc, if_neg (hxy ▸ hc)]
        congr 1
        exact ihy (fun a ha b hb => h a ha b (List.mem_cons_of_mem y hb))

theorem mergeSort_congr (le le' : Pt → Pt → Bool) :
    ∀ (l : List Pt),
      (∀ x ∈ l, ∀ y ∈ l, le x y = le' x y) →
      l.mergeSort le = l.mergeSort le'
  | [], _ => by simp
  | [a], _ => by simp
  | a :: b :: xs, h => by
    have hl1 : (List.splitInTwo ⟨a :: b :: xs, rfl⟩).1.1.length <
        xs.length + 1 + 1 := by
      simp [List.splitInTwo_fst]
      omega
    have hl2 : (List.splitInTwo ⟨a :: b :: xs, rfl⟩).2.1.length <
        xs.length + 1 + 1 := by
      simp [List.splitInTwo_snd]
      omega
    have hsub1 : (List.splitInTwo ⟨a :: b :: xs, rfl⟩).1.1 ⊆ a :: b :: xs := by
      rw [List.splitInTwo_fst]
      exact List.take_subset _ _
    have hsub2 : (List.splitInTwo ⟨a :: b :: xs, rfl⟩).2.1 ⊆ a :: b :: xs := by
      rw [List.splitInTwo_snd]
      exact List.drop_subset _ _
    rw [List.mergeSort, List.mergeSort]
    rw [mergeSort_congr le le' (List.splitInTwo ⟨a :: b :: xs, rfl⟩).1.1
      (fun x hx y hy => h x (hsub1 hx) y (hsub1 hy))]
    rw [mergeSort_congr le le' (List.splitInTwo ⟨a :: b :: xs, rfl⟩).2.1
      (fun x hx y hy => h x (hsub2 hx) y (hsub2 hy))]
    exact merge_congr le le' _ _ (fun x hx y hy =>
      h x (hsub1 (List.mem_mergeSort.mp hx)) y (hsub2 (List.mem_mergeSort.mp hy)))
termination_by l => l.length

/-! ## Lemmas about `cleanCore` -/

/-- The output of `cleanCore` is the spike loop applied to the sorted
filtered list. -/
theorem cleanCore_eq_spikeFilter (dist : Pt → Pt → ℚ) (opts : CleanOpts)
    (nowSec : ℚ) (history : List Pt) :
    cleanCore dist opts nowSec history =
      spikeFilter dist opts.jumpKmThreshold
        (((history.filter coordOk).filter (tsKeep opts nowSec)).mergeSort
          sortLe) := rfl

/-- The spike loop preserves any pairwise property of its input. -/
theorem spikeFilter_pairwise {R : Pt → Pt → Prop} (dist : Pt → Pt → ℚ)
    (thr : ℚ) (l : List Pt) (h : l.Pairwise R) :
    (spikeFilter dist thr l).Pairwise R := by
  cases l with
  | nil => simp [spikeFilter]
  | cons p rest =>
    rw [spikeFilter_cons]
    exact List.Pairwise.sublist
      (List.Sublist.cons₂ p (spikeAux_sublist dist thr rest p)) h

theorem cleanCore_chain' (dist : Pt → Pt → ℚ) (opts : CleanOpts)
    (nowSec : ℚ) (history : List Pt) :
    List.Chain' (okRel dist opts.jumpKmThreshold)
      (cleanCore dist opts nowSec history) := by
  rw [cleanCore_eq_spikeFilter]
  cases ((history.filter coordOk).filter (tsKeep opts nowSec)).mergeSort
      sortLe with
  | nil => simp [spikeFilter]
  | cons p rest =>
    rw [spikeFilter_cons]
    exact spikeAux_chain dist opts.jumpKmThreshold rest p

theorem mem_cleanCore_filtered (dist : Pt → Pt → ℚ) (opts : CleanOpts)
    (nowSec : ℚ) (history : List Pt) (p : Pt)
    (hp : p ∈ cleanCore dist opts nowSec history) :
    p ∈ (history.filter coordOk).filter (tsKeep opts nowSec) := by
  rw [cleanCore_eq_spikeFilter] at hp
  have hmem : p ∈ ((history.filter coordOk).filter
      (tsKeep opts nowSec)).mergeSort sortLe := by
    cases hS : ((history.filter coordOk).filter
        (tsKeep opts nowSec)).mergeSort sortLe with
    | nil => rw [hS] at hp; simp [spikeFilter] at hp
    | cons q rest =>
      rw [hS, spikeFilter_cons] at hp
      rcases List.mem_cons.mp hp with h | h
      · rw [h]; exact List.mem_cons_self q rest
      · exact List.mem_cons_of_mem q
          (List.Sublist.mem h
            (spikeAux_sublist dist opts.jumpKmThreshold rest q))
  exact List.mem_mergeSort.mp hmem

theorem mem_cleanCore (dist : Pt → Pt → ℚ) (opts : CleanOpts)
    (nowSec : ℚ) (history : List Pt) (p : Pt)
    (hp : p ∈ cleanCore dist opts nowSec history) :
    coordOk p ∧ tsKeep opts nowSec p := by
  have hmem := mem_cleanCore_filtered dist opts nowSec history p hp
  exact ⟨List.of_mem_filter (List.mem_of_mem_filter hmem),
    List.of_mem_filter hmem⟩

theorem tsKeep_isSome (opts : CleanOpts) (nowSec : ℚ) (p : Pt)
    (h : tsKeep opts nowSec p) : p.ts.isSome := by
  cases hts : p.ts with
  | none => rw [tsKeep, hts] at h; exact absurd h (by simp)
  | some t => rfl

/-- A kept timestamp that is not `NaN` is finite: null is removed by the
first check, and the infinities fail the range checks. -/
theorem tsKeep_finTs (opts : CleanOpts) (nowSec : ℚ) (p : Pt)
    (hnn : p.ts ≠ some JNum.nan) (h : tsKeep opts nowSec p) : finTs p := by
  cases hts : p.ts with
  | none => rw [tsKeep, hts] at h; exact absurd h (by simp)
  | some t =>
    cases t with
    | nan => exact absurd hts hnn
    | inf =>
      rw [tsKeep, hts] at h
      simp [JNum.lt] at h
    | ninf =>
      rw [tsKeep, hts] at h
      simp [JNum.lt] at h
    | fin q => exact ⟨q, hts⟩

theorem mem_filtered_finTs (opts : CleanOpts) (nowSec : ℚ)
    (history : List Pt)
    (hnn : ∀ p ∈ history, p.ts ≠ some JNum.nan) :
    ∀ p ∈ (history.filter coordOk).filter (tsKeep opts nowSec), finTs p := by
  intro p hp
  have h1 : tsKeep opts nowSec p = true := List.of_mem_filter hp
  have h3 : p ∈ history :=
    List.mem_of_mem_filter (List.mem_of_mem_filter hp)
  exact tsKeep_finTs opts nowSec p (hnn p h3) h1

/-- On an input with no `NaN` timestamps the sort comparator coincides
with the total transitive rational comparator, so `cleanCore` can be
rewritten through `leQ`. -/
theorem cleanCore_eq_leQ (dist : Pt → Pt → ℚ) (opts : CleanOpts)
    (nowSec : ℚ) (history : List Pt)
    (hnn : ∀ p ∈ history, p.ts ≠ some JNum.nan) :
    cleanCore dist opts nowSec history =
      spikeFilter dist opts.jumpKmThreshold
        (((history.filter coordOk).filter (tsKeep opts nowSec)).mergeSort
          leQ) := by
  rw [cleanCore_eq_spikeFilter]
  rw [mergeSort_congr sortLe leQ
    ((history.filter coordOk).filter (tsKeep opts nowSec))
    (fun x hx y hy => sortLe_eq_leQ x y
      (mem_filtered_finTs opts nowSec history hnn x hx)
      (mem_filtered_finTs opts nowSec history hnn y hy))]

theorem cleanCore_pairwise_of_noNaN (dist : Pt → Pt → ℚ)
    (opts : CleanOpts) (nowSec : ℚ) (history : List Pt)
    (hnn : ∀ p ∈ history, p.ts ≠ some JNum.nan) :
    (cleanCore dist opts nowSec history).Pairwise
      (fun a b => leQ a b) := by
  rw [cleanCore_eq_leQ dist opts nowSec history hnn]
  exact spikeFilter_pairwise dist opts.jumpKmThreshold _
    (List.sorted_mergeSort leQ_trans leQ_total _)

theorem mem_cleanCore_finTs (dist : Pt → Pt → ℚ) (opts : CleanOpts)
    (nowSec : ℚ) (history : List Pt)
    (hnn : ∀ p ∈ history, p.ts ≠ some JNum.nan) :
    ∀ p ∈ cleanCore dist opts nowSec history, finTs p := by
  intro p hp
  exact mem_filtered_finTs opts nowSec history hnn p
    (mem_cleanCore_filtered dist opts nowSec history p hp)

/-- `cleanCore` is idempotent on inputs with no `NaN` timestamps. -/
theorem cleanCore_idem_of_noNaN (dist : Pt → Pt → ℚ) (opts : CleanOpts)
    (nowSec : ℚ) (history : List Pt)
    (hnn : ∀ p ∈ history, p.ts ≠ some JNum.nan) :
    cleanCore dist opts nowSec (cleanCore dist opts nowSec history) =
      cleanCore dist opts nowSec history := by
  have hfin : ∀ p ∈ cleanCore dist opts nowSec history, finTs p :=
    mem_cleanCore_finTs dist opts nowSec history hnn
  have hco : (cleanCore dist opts nowSec history).filter coordOk =
      cleanCore dist opts nowSec history :=
    List.filter_eq_self.mpr
      (fun a ha => (mem_cleanCore dist opts nowSec history a ha).1)
  have hts : (cleanCore dist opts nowSec history).filter
      (tsKeep opts nowSec) = cleanCore dist opts nowSec history :=
    List.filter_eq_self.mpr
      (fun a ha => (mem_cleanCore dist opts nowSec history a ha).2)
  have hsort : (cleanCore dist opts nowSec history).mergeSort sortLe =
      cleanCore dist opts nowSec history := by
    rw [mergeSort_congr sortLe leQ (cleanCore dist opts nowSec history)
      (fun x hx y hy => sortLe_eq_leQ x y (hfin x hx) (hfin y hy))]
    exact List.mergeSort_of_sorted
      (cleanCore_pairwise_of_noNaN dist opts nowSec history hnn)
  have hspike : spikeFilter dist opts.jumpKmThreshold
      (cleanCore dist opts nowSec history) =
      cleanCore dist opts nowSec history :=
    spikeFilter_of_chain' dist opts.jumpKmThreshold _
      (cleanCore_chain' dist opts nowSec history)
  calc cleanCore dist opts nowSec (cleanCore dist opts nowSec history)
      = spikeFilter dist opts.jumpKmThreshold
          ((((cleanCore dist opts nowSec history).filter coordOk).filter
            (tsKeep opts nowSec)).mergeSort sortLe) := rfl
    _ = cleanCore dist opts nowSec history := by
          rw [hco, hts, hsort, hspike]

/-! ## Evaluation helpers and example inputs -/

theorem jsMapPoints_objv : ∀ (l : List Pt),
    jsMapPoints (l.map RawElem.objv) = .ok l := by
  intro l
  induction l with
  | nil => rfl
  | cons p rest ih => rw [List.map_cons, jsMapPoints, ih]; rfl

theorem cleanCore_nil (dist : Pt → Pt → ℚ) (opts : CleanOpts)
    (nowSec : ℚ) : cleanCore dist opts nowSec [] = [] := by
  rw [cleanCore_eq_spikeFilter]
  rw [show (([] : List Pt).filter coordOk).filter (tsKeep opts nowSec) =
    [] from rfl]
  rw [List.mergeSort_nil]
  rfl

/-- Evaluation helper: `cleanCore` on a singleton whose filters pass. -/
theorem cleanCore_singleton (dist : Pt → Pt → ℚ) (opts : CleanOpts)
    (nowSec : ℚ) (p : Pt) (h : ([p].filter coordOk).filter
      (tsKeep opts nowSec) = [p]) :
    cleanCore dist opts nowSec [p] = [p] := by
  rw [cleanCore_eq_spikeFilter, h, List.mergeSort_singleton]
  rfl

/-- Evaluation helper: `cleanCore` on a singleton whose filters drop the
point. -/
theorem cleanCore_singleton_dropped (dist : Pt → Pt → ℚ)
    (opts : CleanOpts) (nowSec : ℚ) (p : Pt)
    (h : ([p].filter coordOk).filter (tsKeep opts nowSec) = []) :
    cleanCore dist opts nowSec [p] = [] := by
  rw [cleanCore_eq_spikeFilter, h, List.mergeSort_nil]
  rfl

/-- Unfolding `mergeSort` on a two-element list. -/
theorem mergeSort_two (le : Pt → Pt → Bool) (a b : Pt) :
    List.mergeSort [a, b] le = List.merge [a] [b] le := by
  rw [List.mergeSort]
  simp [List.splitInTwo, List.splitAt_eq]

/-- Unfolding `mergeSort` on a three-element list. -/
theorem mergeSort_three (le : Pt → Pt → Bool) (a b c : Pt) :
    List.mergeSort [a, b, c] le =
      List.merge (List.mergeSort [a, b] le) [c] le := by
  rw [List.mergeSort]
  simp [List.splitInTwo, List.splitAt_eq]

/-- Unfolding `mergeSort` on a six-element list. -/
theorem mergeSort_six (le : Pt → Pt → Bool) (a b c d e f : Pt) :
    List.mergeSort [a, b, c, d, e, f] le =
      List.merge (List.mergeSort [a, b, c] le)
        (List.mergeSort [d, e, f] le) le := by
  rw [List.mergeSort]
  simp [List.splitInTwo, List.splitAt_eq]

/-- The comparator on two points with finite timestamps. -/
theorem sortLe_fin (a b : Pt) (qa qb : ℚ) (ha : tsv a = .fin qa)
    (hb : tsv b = .fin qb) : sortLe a b = decide (qa ≤ qb) := by
  rw [sortLe, ha, hb]
  simp only [JNum.sub, JNum.lt]
  by_cases h : qa ≤ qb
  · have h1 : ¬(0 < qa - qb) := by linarith
    simp [h, h1]
  · have h1 : 0 < qa - qb := by
      have := lt_of_not_le h
      linarith
    simp [h, h1]

/-- A `NaN` timestamp ties with everything on the right. -/
theorem sortLe_nan_right (a b : Pt) (hb : tsv b = .nan) :
    sortLe a b = true := by
  rw [sortLe, hb]
  cases tsv a <;> simp [JNum.sub, JNum.lt]

/-- A `NaN` timestamp ties with everything on the left. -/
theorem sortLe_nan_left (a b : Pt) (ha : tsv a = .nan) :
    sortLe a b = true := by
  rw [sortLe, ha]
  simp [JNum.sub, JNum.lt]

/-- Example inputs used by the concrete witnesses and counterexamples. -/
def ptA : Pt := ⟨.fin 10, .fin 10, some (.fin 1010)⟩

def ptB : Pt := ⟨.fin 50, .fin 50, some (.fin 1015)⟩

def ptOk : Pt := ⟨.fin 10, .fin 10, some (.fin 63356000000)⟩

def ptBadTs : Pt := ⟨.fin 1, .fin 1, none⟩

def pt2023 : Pt := ⟨.fin 10, .fin 10, some (.fin 1700000000)⟩

def dist0 : Pt → Pt → ℚ := fun _ _ => 0

def distFar : Pt → Pt → ℚ := fun _ _ => 5000

/-- Two points whose raw timestamps are malformed, so `Number` coerced
them to `NaN`. -/
def nanPt1 : Pt := ⟨.fin 1, .fin 1, some .nan⟩

def nanPt2 : Pt := ⟨.fin 2, .fin 2, some .nan⟩

/-- Six points at identical coordinates (so the haversine between any two
of them is 0) with distinct valid finite timestamps — except `eN`, whose
timestamp coerced to `NaN`. -/
def e1 : Pt := ⟨.fin 0, .fin 0, some (.fin 63355900001)⟩

def e2 : Pt := ⟨.fin 0, .fin 0, some (.fin 63355900002)⟩

def e3 : Pt := ⟨.fin 0, .fin 0, some (.fin 63355900003)⟩

def e4 : Pt := ⟨.fin 0, .fin 0, some (.fin 63355900004)⟩

def e5 : Pt := ⟨.fin 0, .fin 0, some (.fin 63355900005)⟩

def eN : Pt := ⟨.fin 0, .fin 0, some .nan⟩

/-- Evaluation helper for the timestamp filter on a finite timestamp. -/
theorem tsKeep_eval_fin (opts : CleanOpts) (nowSec : ℚ) (p : Pt) (q : ℚ)
    (hts : p.ts = some (.fin q))
    (h1 : ¬q < opts.minYear * 365 * 24 * 3600)
    (h2 : ¬nowSec + opts.maxFutureSec < q) :
    tsKeep opts nowSec p = true := by
  simp only [tsKeep, hts, JNum.lt]
  rw [if_neg (by simpa using h1), if_neg (by simpa using h2)]

/-- The timestamp filter keeps a `NaN` timestamp: both range comparisons
are false. -/
theorem tsKeep_eval_nan (opts : CleanOpts) (nowSec : ℚ) (p : Pt)
    (hts : p.ts = some .nan) : tsKeep opts nowSec p = true := by
  simp [tsKeep, hts, JNum.lt]

/-- First clean of the six-point input: the sort leaves `e5` stranded
before the `NaN` point, which ties with everything. -/
theorem cleanCore_c8_first :
    cleanCore dist0 {} 63360000000 [e1, e2, e5, e3, eN, e4] =
      [e1, e2, e3, e5, eN, e4] := by
  have hco : [e1, e2, e5, e3, eN, e4].filter coordOk =
      [e1, e2, e5, e3, eN, e4] := rfl
  have k1 : tsKeep {} 63360000000 e1 = true :=
    tsKeep_eval_fin {} 63360000000 e1 63355900001 rfl (by norm_num)
      (by norm_num)
  have k2 : tsKeep {} 63360000000 e2 = true :=
    tsKeep_eval_fin {} 63360000000 e2 63355900002 rfl (by norm_num)
      (by norm_num)
  have k3 : tsKeep {} 63360000000 e3 = true :=
    tsKeep_eval_fin {} 63360000000 e3 63355900003 rfl (by norm_num)
      (by norm_num)
  have k4 : tsKeep {} 63360000000 e4 = true :=
    tsKeep_eval_fin {} 63360000000 e4 63355900004 rfl (by norm_num)
      (by norm_num)
  have k5 : tsKeep {} 63360000000 e5 = true :=
    tsKeep_eval_fin {} 63360000000 e5 63355900005 rfl (by norm_num)
      (by norm_num)
  have kN : tsKeep {} 63360000000 eN = true := tsKeep_eval_nan _ _ eN rfl
  have hfil : ([e1, e2, e5, e3, eN, e4].filter coordOk).filter
      (tsKeep {} 63360000000) = [e1, e2, e5, e3, eN, e4] := by
    rw [hco]
    simp [List.filter_cons, k1, k2, k3, k4, k5, kN]
  have t12 : sortLe e1 e2 = true := by
    rw [sortLe_fin e1 e2 63355900001 63355900002 rfl rfl]; norm_num
  have t13 : sortLe e1 e3 = true := by
    rw [sortLe_fin e1 e3 63355900001 63355900003 rfl rfl]; norm_num
  have t15 : sortLe e1 e5 = true := by
    rw [sortLe_fin e1 e5 63355900001 63355900005 rfl rfl]; norm_num
  have t23 : sortLe e2 e3 = true := by
    rw [sortLe_fin e2 e3 63355900002 63355900003 rfl rfl]; norm_num
  have t25 : sortLe e2 e5 = true := by
    rw [sortLe_fin e2 e5 63355900002 63355900005 rfl rfl]; norm_num
  have t34 : sortLe e3 e4 = true := by
    rw [sortLe_fin e3 e4 63355900003 63355900004 rfl rfl]; norm_num
  have f53 : sortLe e5 e3 = false := by
    rw [sortLe_fin e5 e3 63355900005 63355900003 rfl rfl]; norm_num
  have nR : ∀ a : Pt, sortLe a eN = true :=
    fun a => sortLe_nan_right a eN rfl
  have nL : ∀ b : Pt, sortLe eN b = true :=
    fun b => sortLe_nan_left eN b rfl
  have hsort : List.mergeSort [e1, e2, e5, e3, eN, e4] sortLe =
      [e1, e2, e3, e5, eN, e4] := by
    rw [mergeSort_six, mergeSort_three, mergeSort_three, mergeSort_two,
      mergeSort_two]
    simp [List.cons_merge_cons, t12, t13, t15, t23, t25, t34, f53, nR, nL]
  rw [cleanCore_eq_spikeFilter, hfil, hsort]
  exact spikeFilter_of_not_far dist0 _ (fun a b => by norm_num [dist0]) _

/-- Second clean of the six-point trajectory: re-sorting moves `e4` in
front of `e5`, because the comparator made inconsistent by the `NaN`
timestamp lets the merge compare `e5` directly with `e4`. -/
theorem cleanCore_c8_second :
    cleanCore dist0 {} 63360000000 [e1, e2, e3, e5, eN, e4] =
      [e1, e2, e3, e4, e5, eN] := by
  have hco : [e1, e2, e3, e5, eN, e4].filter coordOk =
      [e1, e2, e3, e5, eN, e4] := rfl
  have k1 : tsKeep {} 63360000000 e1 = true :=
    tsKeep_eval_fin {} 63360000000 e1 63355900001 rfl (by norm_num)
      (by norm_num)
  have k2 : tsKeep {} 63360000000 e2 = true :=
    tsKeep_eval_fin {} 63360000000 e2 63355900002 rfl (by norm_num)
      (by norm_num)
  have k3 : tsKeep {} 63360000000 e3 = true :=
    tsKeep_eval_fin {} 63360000000 e3 63355900003 rfl (by norm_num)
      (by norm_num)
  have k4 : tsKeep {} 63360000000 e4 = true :=
    tsKeep_eval_fin {} 63360000000 e4 63355900004 rfl (by norm_num)
      (by norm_num)
  have k5 : tsKeep {} 63360000000 e5 = true :=
    tsKeep_eval_fin {} 63360000000 e5 63355900005 rfl (by norm_num)
      (by norm_num)
  have kN : tsKeep {} 63360000000 eN = true := tsKeep_eval_nan _ _ eN rfl
  have hfil : ([e1, e2, e3, e5, eN, e4].filter coordOk).filter
      (tsKeep {} 63360000000) = [e1, e2, e3, e5, eN, e4] := by
    rw [hco]
    simp [List.filter_cons, k1, k2, k3, k4, k5, kN]
  have t12 : sortLe e1 e2 = true := by
    rw [sortLe_fin e1 e2 63355900001 63355900002 rfl rfl]; norm_num
  have t13 : sortLe e1 e3 = true := by
    rw [sortLe_fin e1 e3 63355900001 63355900003 rfl rfl]; norm_num
  have t14 : sortLe e1 e4 = true := by
    rw [sortLe_fin e1 e4 63355900001 63355900004 rfl rfl]; norm_num
  have t23 : sortLe e2 e3 = true := by
    rw [sortLe_fin e2 e3 63355900002 63355900003 rfl rfl]; norm_num
  have t24 : sortLe e2 e4 = true := by
    rw [sortLe_fin e2 e4 63355900002 63355900004 rfl rfl]; norm_num
  have t34 : sortLe e3 e4 = true := by
    rw [sortLe_fin e3 e4 63355900003 63355900004 rfl rfl]; norm_num
  have f54 : sortLe e5 e4 = false := by
    rw [sortLe_fin e5 e4 63355900005 63355900004 rfl rfl]; norm_num
  have nR : ∀ a : Pt, sortLe a eN = true :=
    fun a => sortLe_nan_right a eN rfl
  have hsort : List.mergeSort [e1, e2, e3, e5, eN, e4] sortLe =
      [e1, e2, e3, e4, e5, eN] := by
    rw [mergeSort_six, mergeSort_three, mergeSort_three, mergeSort_two,
      mergeSort_two]
    simp [List.cons_merge_cons, t12, t13, t14, t23, t24, t34, f54, nR]
  rw [cleanCore_eq_spikeFilter, hfil, hsort]
  exact spikeFilter_of_not_far dist0 _ (fun a b => by norm_num [dist0]) _

/-- Cleaning the two-`NaN` input keeps both points in input order. -/
theorem cleanCore_nan_pair :
    cleanCore dist0 {} 63360000000 [nanPt1, nanPt2] =
      [nanPt1, nanPt2] := by
  have hco : [nanPt1, nanPt2].filter coordOk = [nanPt1, nanPt2] := rfl
  have k1 : tsKeep {} 63360000000 nanPt1 = true :=
    tsKeep_eval_nan _ _ nanPt1 rfl
  have k2 : tsKeep {} 63360000000 nanPt2 = true :=
    tsKeep_eval_nan _ _ nanPt2 rfl
  have hfil : ([nanPt1, nanPt2].filter coordOk).filter
      (tsKeep {} 63360000000) = [nanPt1, nanPt2] := by
    rw [hco]
    simp [List.filter_cons, k1, k2]
  have hsorted : List.Pairwise (fun a b => sortLe a b = true)
      [nanPt1, nanPt2] := by
    simp [List.pairwise_cons, sortLe_nan_right nanPt1 nanPt2 rfl]
  rw [cleanCore_eq_spikeFilter, hfil, List.mergeSort_of_sorted hsorted]
  exact spikeFilter_of_not_far dist0 _ (fun a b => by norm_num [dist0]) _

/-- Shared concrete evaluation: cleaning the singleton `[ptOk]` keeps the
point. -/
theorem cleanCore_ptOk :
    cleanCore dist0 {} 63360000000 [ptOk] = [ptOk] := by
  apply cleanCore_singleton
  rw [show [ptOk].filter coordOk = [ptOk] from rfl]
  simp [List.filter_cons,
    tsKeep_eval_fin {} 63360000000 ptOk 63356000000 rfl (by norm_num)
      (by norm_num)]

theorem mem_of_jsMapPoints : ∀ (l : List RawElem) (m : List Pt),
    jsMapPoints l = .ok m → ∀ p ∈ m, RawElem.objv p ∈ l := by
  intro l
  induction l with
  | nil =>
    intro m hm p hp
    rw [jsMapPoints] at hm
    injection hm with hm
    rw [← hm] at hp
    exact absurd hp (List.not_mem_nil p)
  | cons e rest ih =>
    intro m hm p hp
    cases e with
    | nullish =>
      rw [jsMapPoints] at hm
      exact Except.noConfusion hm
    | objv o =>
      rw [jsMapPoints] at hm
      cases hrest : jsMapPoints rest with
      | error err =>
        rw [hrest] at hm
        exact Except.noConfusion hm
      | ok m' =>
        rw [hrest] at hm
        injection hm with hm
        rw [← hm] at hp
        rcases List.mem_cons.mp hp with h | h
        · rw [h]; exact List.mem_cons_self _ _
        · exact List.mem_cons_of_mem _ (ih m' hrest p h)

/-! ## Claim C7: sortedness and jump-freeness of the clean output -/

/-- C7 counterexample: two points whose malformed raw timestamps were
coerced to `NaN` by the map step both pass the timestamp-validity filter
(every JavaScript comparison against `NaN` is false) and reach the
output, where the stable sort keeps them in input order (the comparator
`a.ts - b.ts` evaluates to `NaN`, which `SortCompare` treats as a tie —
with an all-ties comparator the comparator is consistent, so ECMA-262
requires exactly this order).  The output is not sorted ascending by
`ts`: the adjacent timestamps are `NaN`, which JavaScript `<=` does not
relate. -/
theorem c7_counterexample_nan_ts_not_sorted :
    tsKeep {} 63360000000 nanPt1 = true ∧
    cleanCore dist0 {} 63360000000 [nanPt1, nanPt2] = [nanPt1, nanPt2] ∧
    JNum.leb (tsv nanPt1) (tsv nanPt2) = false ∧
    ¬List.Chain' (fun a b : Pt => JNum.leb (tsv a) (tsv b) = true)
      (cleanCore dist0 {} 63360000000 [nanPt1, nanPt2]) := by
  refine ⟨tsKeep_eval_nan _ _ nanPt1 rfl, cleanCore_nan_pair, rfl, ?_⟩
  rw [cleanCore_nan_pair]
  simp [List.chain'_cons, nanPt1, nanPt2, tsv, JNum.leb]

/-- C7 (amended): for every distance function, option values and input,
(1) no two adjacent output points violate the jump condition — further
apart than `jumpKmThreshold` (as measured by whatever the distance
function evaluates to, universally quantified, hence in particular the
haversine `earthKm`) while their elapsed time is under 60 s (an elapsed
time involving `NaN` compares false) — and (2) every output point
carries a non-null timestamp; moreover (3) provided no input timestamp
coerced to `NaN`, the output is sorted ascending by `ts` and every
output timestamp is finite.  Without the `NaN`-freedom proviso the
ascending-by-`ts` part genuinely fails (see the counterexample). -/
theorem c7_clean_sorted_and_jump_free (dist : Pt → Pt → ℚ)
    (opts : CleanOpts) (nowSec : ℚ) (history : List Pt) :
    List.Chain' (okRel dist opts.jumpKmThreshold)
      (cleanCore dist opts nowSec history) ∧
    (∀ p ∈ cleanCore dist opts nowSec history, p.ts.isSome) ∧
    ((∀ p ∈ history, p.ts ≠ some JNum.nan) →
      (cleanCore dist opts nowSec history).Pairwise
        (fun a b => tsq a ≤ tsq b) ∧
      ∀ p ∈ cleanCore dist opts nowSec history, finTs p) := by
  refine ⟨cleanCore_chain' dist opts nowSec history, ?_, ?_⟩
  · intro p hp
    exact tsKeep_isSome opts nowSec p
      (mem_cleanCore dist opts nowSec history p hp).2
  · intro hnn
    refine ⟨?_, mem_cleanCore_finTs dist opts nowSec history hnn⟩
    exact (cleanCore_pairwise_of_noNaN dist opts nowSec history hnn).imp
      (by intro a b h; exact (by simpa [leQ] using h))

/-- C7 witness: the hypotheses of the amended theorem discharged on a
concrete `NaN`-free input. -/
theorem c7_clean_sorted_and_jump_free_witness :
    (∀ p ∈ [ptOk], p.ts ≠ some JNum.nan) ∧
    ptOk ∈ cleanCore dist0 {} 63360000000 [ptOk] ∧
    Option.isSome ptOk.ts = true ∧
    (cleanCore dist0 {} 63360000000 [ptOk]).Pairwise
      (fun a b => tsq a ≤ tsq b) := by
  have hnn : ∀ p ∈ [ptOk], p.ts ≠ some JNum.nan := by
    intro p hp
    rw [List.mem_singleton] at hp
    rw [hp]
    simp [ptOk]
  have hmem : ptOk ∈ cleanCore dist0 {} 63360000000 [ptOk] := by
    rw [cleanCore_ptOk]
    exact List.mem_cons_self _ _
  obtain ⟨hchain, hsome, hrest⟩ :=
    c7_clean_sorted_and_jump_free dist0 {} 63360000000 [ptOk]
  exact ⟨hnn, hmem, hsome ptOk hmem, (hrest hnn).1⟩

/-! ## Claim C8: idempotence of clean -/

/-- C8 counterexample: `clean (clean x) ≠ clean x` at a concrete input.
All six points share the same coordinates (so the haversine between any
two of them is 0 and the spike loop never fires); five timestamps are
distinct valid epoch seconds, one coerced to `NaN`.  The first clean
keeps all six and leaves `e5` stranded before the `NaN` point (which
ties with everything); cleaning the result re-sorts with the
now-inconsistent comparator and the merge moves `e4` ahead of `e5`.
When `NaN` makes the comparator inconsistent ECMA-262 leaves the sort
order implementation-defined; this result is relative to the modelled
stable top-down merge sort, one compliant behaviour, and shows
idempotence is not a guarantee of the program. -/
theorem c8_counterexample_nan_ts_not_idempotent :
    cleanCore dist0 {} 63360000000 [e1, e2, e5, e3, eN, e4] =
      [e1, e2, e3, e5, eN, e4] ∧
    cleanCore dist0 {} 63360000000
        (cleanCore dist0 {} 63360000000 [e1, e2, e5, e3, eN, e4]) =
      [e1, e2, e3, e4, e5, eN] ∧
    cleanCore dist0 {} 63360000000
        (cleanCore dist0 {} 63360000000 [e1, e2, e5, e3, eN, e4]) ≠
      cleanCore dist0 {} 63360000000 [e1, e2, e5, e3, eN, e4] := by
  refine ⟨cleanCore_c8_first, ?_, ?_⟩
  · rw [cleanCore_c8_first]
    exact cleanCore_c8_second
  · rw [cleanCore_c8_first, cleanCore_c8_second]
    intro hc
    have h4 : e4 = e5 := by
      injection hc with _ hc1
      injection hc1 with _ hc2
      injection hc2 with _ hc3
      injection hc3 with h4
    rw [e4, e5] at h4
    injection h4 with _ _ hts
    injection hts with hts
    injection hts with hts
    norm_num at hts

/-- C8 (amended): `cleanAndSortHistory` is idempotent on every input
none of whose object elements carries a timestamp that coerced to `NaN`
(the distance function, options and clock held fixed): feeding the
cleaned trajectory back through the cleaner returns it unchanged.  On
`NaN`-timestamped inputs the sort comparator becomes inconsistent and
idempotence fails (see the counterexample). -/
theorem c8_clean_idempotent (dist : Pt → Pt → ℚ) (opts : CleanOpts)
    (nowSec : ℚ) (x : CleanInput) (L : List Pt)
    (hnn : ∀ l, x = .array l → ∀ o, RawElem.objv o ∈ l →
      o.ts ≠ some JNum.nan)
    (h : cleanAndSortHistory dist opts nowSec x = .ok L) :
    cleanAndSortHistory dist opts nowSec (.array (L.map .objv)) = .ok L := by
  have hL : cleanCore dist opts nowSec L = L := by
    cases x with
    | notArray =>
      have : L = [] := by
        rw [cleanAndSortHistory] at h
        exact (Except.ok.injEq _ _ |>.mp h).symm
      rw [this]
      exact cleanCore_nil dist opts nowSec
    | array l =>
      rw [cleanAndSortHistory] at h
      cases hm : jsMapPoints l with
      | error err => rw [hm] at h; exact absurd h (by simp [Except.map])
      | ok m =>
        rw [hm] at h
        have hmem : ∀ p ∈ m, p.ts ≠ some JNum.nan := by
          intro p hp
          exact hnn l rfl p (mem_of_jsMapPoints l m hm p hp)
        have hcl : cleanCore dist opts nowSec m = L := by
          simpa [Except.map] using h
        rw [← hcl]
        exact cleanCore_idem_of_noNaN dist opts nowSec m hmem
  rw [cleanAndSortHistory, jsMapPoints_objv L]
  simpa [Except.map] using hL

/-- C8 witness: a concrete `NaN`-free cleaned trajectory, fed back
through the cleaner, is returned unchanged. -/
theorem c8_clean_idempotent_witness :
    (∀ l, CleanInput.array [RawElem.objv ptOk] = .array l →
      ∀ o, RawElem.objv o ∈ l → o.ts ≠ some JNum.nan) ∧
    cleanAndSortHistory dist0 {} 63360000000
      (.array [.objv ptOk]) = .ok [ptOk] ∧
    cleanAndSortHistory dist0 {} 63360000000
      (.array ([ptOk].map .objv)) = .ok [ptOk] := by
  have hnn : ∀ l, CleanInput.array [RawElem.objv ptOk] = .array l →
      ∀ o, RawElem.objv o ∈ l → o.ts ≠ some JNum.nan := by
    intro l hl o ho
    injection hl with hl
    rw [← hl] at ho
    rw [List.mem_singleton] at ho
    injection ho with ho
    rw [ho]
    simp [ptOk]
  have h : cleanAndSortHistory dist0 {} 63360000000
      (.array [.objv ptOk]) = .ok [ptOk] := by
    show (jsMapPoints [.objv ptOk]).map (cleanCore dist0 {} 63360000000) =
      .ok [ptOk]
    rw [show jsMapPoints [.objv ptOk] = .ok [ptOk] from rfl]
    rw [show Except.map (cleanCore dist0 {} 63360000000)
      (Except.ok [ptOk] : Except JsErr (List Pt)) =
      .ok (cleanCore dist0 {} 63360000000 [ptOk]) from rfl]
    rw [cleanCore_ptOk]
  exact ⟨hnn, h, c8_clean_idempotent dist0 {} 63360000000
    (.array [.objv ptOk]) [ptOk] hnn h⟩

/-! ## Claim C9: the spike-rejection step -/

/-- C9: one step of the spike-rejection loop, for a candidate `p`
arriving when the running array `acc` ends in the last accepted point
`prev`: if `p` is further than the threshold from `prev` and the elapsed
time `p.ts - prev.ts` is under 60 s (false when the elapsed time is
`NaN`), `p` is discarded and the fold continues with `acc` unchanged (so
the next candidate is compared against the same `prev`); otherwise `p`
is appended and becomes the new last-accepted point. -/
theorem c9_spike_step_semantics (dist : Pt → Pt → ℚ) (thr : ℚ)
    (acc : List Pt) (prev p : Pt) (rest : List Pt)
    (h : acc.getLast? = some prev) :
    (dist prev p > thr ∧
        JNum.lt (JNum.sub (tsv p) (tsv prev)) (.fin 60) →
      (p :: rest).foldl (spikeStep dist thr) acc =
        rest.foldl (spikeStep dist thr) acc) ∧
    (¬(dist prev p > thr ∧
        JNum.lt (JNum.sub (tsv p) (tsv prev)) (.fin 60)) →
      (p :: rest).foldl (spikeStep dist thr) acc =
        rest.foldl (spikeStep dist thr) (acc ++ [p]) ∧
      (acc ++ [p]).getLast? = some p) := by
  constructor
  · intro hc
    rw [List.foldl_cons]
    have hstep : spikeStep dist thr acc p = acc := by
      simp [spikeStep, h, hc]
    rw [hstep]
  · intro hc
    refine ⟨?_, List.getLast?_concat acc⟩
    rw [List.foldl_cons]
    have hstep : spikeStep dist thr acc p = acc ++ [p] := by
      simp [spikeStep, h, hc]
    rw [hstep]

/-- C9 witness: the step semantics at a concrete state — a far, fast
candidate arriving against a concrete last-accepted baseline. -/
theorem c9_spike_step_semantics_witness :
    List.getLast? [ptA] = some ptA ∧
    ((distFar ptA ptB > 200 ∧
        JNum.lt (JNum.sub (tsv ptB) (tsv ptA)) (.fin 60) →
      ([ptB] : List Pt).foldl (spikeStep distFar 200) [ptA] =
        ([] : List Pt).foldl (spikeStep distFar 200) [ptA]) ∧
    (¬(distFar ptA ptB > 200 ∧
        JNum.lt (JNum.sub (tsv ptB) (tsv ptA)) (.fin 60)) →
      ([ptB] : List Pt).foldl (spikeStep distFar 200) [ptA] =
        ([] : List Pt).foldl (spikeStep distFar 200) ([ptA] ++ [ptB]) ∧
      ([ptA] ++ [ptB]).getLast? = some ptB)) :=
  ⟨rfl, c9_spike_step_semantics distFar 200 [ptA] ptA ptB [] rfl⟩

/-! ## Claim C1: the minYear lower bound -/

/-- C1 (code bug): with default options the timestamp-validity filter
compares against `minYear * 365 * 24 * 3600 = 63355824000`, not against
the epoch-seconds boundary of calendar year 2009 (`1230768000`).  At a
current time of `1760227200` the point with `ts = 1700000000` satisfies
the boundary stated by the spec (last conjunct) yet is rejected by the
filter and dropped by the cleaner (first two conjuncts). -/
theorem c1_minYear_filter_drops_2023_timestamp :
    tsKeep {} 1760227200 pt2023 = false ∧
    cleanCore dist0 {} 1760227200 [pt2023] = [] ∧
    ({} : CleanOpts).minYear * 365 * 24 * 3600 = 63355824000 ∧
    ((1230768000 : ℚ) ≤ 1700000000 ∧
      (1700000000 : ℚ) ≤ 1760227200 + 86400) := by
  have hk : tsKeep {} 1760227200 pt2023 = false := by
    simp only [tsKeep, show pt2023.ts = some (.fin 1700000000) from rfl,
      JNum.lt]
    rw [if_pos (by simp only [decide_eq_true_eq]; norm_num)]
  refine ⟨hk, ?_, by norm_num, by norm_num⟩
  apply cleanCore_singleton_dropped
  rw [show [pt2023].filter coordOk = [pt2023] from rfl]
  simp [List.filter_cons, hk]

/-! ## Claim C5: clean on malformed input -/

/-- C5 counterexample: an array containing a `null` element makes
`cleanAndSortHistory` throw a `TypeError` (reading `.lat` of `null`)
instead of yielding an empty trajectory. -/
theorem c5_counterexample_null_element_throws :
    cleanAndSortHistory dist0 {} 0 (.array [.nullish]) =
      .error .typeError := rfl

theorem jsMapPoints_ok_of_no_nullish :
    ∀ (l : List RawElem), (∀ e ∈ l, e ≠ RawElem.nullish) →
      ∃ m, jsMapPoints l = .ok m := by
  intro l
  induction l with
  | nil => intro _; exact ⟨[], rfl⟩
  | cons e rest ih =>
    intro h
    cases e with
    | nullish => exact absurd rfl (h _ (List.mem_cons_self _ _))
    | objv o =>
      obtain ⟨m, hm⟩ := ih (fun e he => h e (List.mem_cons_of_mem _ he))
      exact ⟨o :: m, by rw [jsMapPoints, hm]; rfl⟩

/-- C5 (amended): `cleanAndSortHistory` returns without throwing on
every non-array input (yielding `[]`) and on every array whose
elements are all non-nullish; an array containing a `null`/`undefined`
element throws a `TypeError` (see the counterexample).  No more is
claimed: the result may be non-empty, and a malformed field value is
not necessarily dropped — in particular a `ts` that coerces to `NaN`
passes the validity filter into the output. -/
theorem c5_clean_no_throw_without_null (dist : Pt → Pt → ℚ)
    (opts : CleanOpts) (nowSec : ℚ) :
    cleanAndSortHistory dist opts nowSec .notArray = .ok [] ∧
    ∀ (l : List RawElem), (∀ e ∈ l, e ≠ RawElem.nullish) →
      ∃ L, cleanAndSortHistory dist opts nowSec (.array l) = .ok L := by
  refine ⟨rfl, ?_⟩
  intro l h
  obtain ⟨m, hm⟩ := jsMapPoints_ok_of_no_nullish l h
  exact ⟨cleanCore dist opts nowSec m, by
    rw [cleanAndSortHistory, hm]; rfl⟩

/-- C5 witness: the no-throw theorem applied to a concrete well-formed
array. -/
theorem c5_clean_no_throw_without_null_witness :
    (∀ e ∈ [RawElem.objv ptA], e ≠ RawElem.nullish) ∧
    ∃ L, cleanAndSortHistory dist0 {} 0 (.array [RawElem.objv ptA]) =
      .ok L := by
  have h : ∀ e ∈ [RawElem.objv ptA], e ≠ RawElem.nullish := by
    intro e he
    rw [List.mem_singleton] at he
    rw [he]
    intro hcontr
    exact RawElem.noConfusion hcontr
  exact ⟨h, (c5_clean_no_throw_without_null dist0 {} 0).2
    [RawElem.objv ptA] h⟩

/-! ## Claim C6: `parseTimestampCandidate` case analysis -/

/-- C6: the full case analysis of `parseTimestampCandidate`, for every
`Date.parse` behaviour `dp`: a digit string is converted by `Number`
first and then follows the numeric rules; a number above `1e12` is
milliseconds (floored division by 1000); a number at least `1e9` is
seconds (floored); any smaller number is rejected; a non-digit string is
handed to `Date.parse`, yielding floored epoch seconds on success and
null on failure; null, `NaN` and non-number non-string shapes yield
null.  The spec's five concrete examples follow at the end (the two
string examples under the corresponding `Date.parse` facts). -/
theorem c6_parse_timestamp_cases :
    (∀ (dp : String → Option ℤ) (q : ℚ), q > 10 ^ 12 →
      parseTimestampCandidate dp (.num q) = some ⌊q / 1000⌋) ∧
    (∀ (dp : String → Option ℤ) (q : ℚ), ¬q > 10 ^ 12 → q ≥ 10 ^ 9 →
      parseTimestampCandidate dp (.num q) = some ⌊q⌋) ∧
    (∀ (dp : String → Option ℤ) (q : ℚ), q < 10 ^ 9 →
      parseTimestampCandidate dp (.num q) = none) ∧
    (∀ (dp : String → Option ℤ) (s : String), isDigitString s →
      parseTimestampCandidate dp (.str s) =
        parseTimestampCandidate dp (.num ((s.toNat?.getD 0 : ℕ) : ℚ))) ∧
    (∀ (dp : String → Option ℤ) (s : String), ¬isDigitString s →
      parseTimestampCandidate dp (.str s) =
        (dp s).map (fun ms => ⌊(ms : ℚ) / 1000⌋)) ∧
    (∀ dp : String → Option ℤ,
      parseTimestampCandidate dp .null = none ∧
      parseTimestampCandidate dp .nanNum = none ∧
      parseTimestampCandidate dp .other = none) ∧
    (∀ dp : String → Option ℤ,
      parseTimestampCandidate dp (.num 1700000000) = some 1700000000) ∧
    (∀ dp : String → Option ℤ,
      parseTimestampCandidate dp (.num 1700000000000) = some 1700000000) ∧
    (∀ dp : String → Option ℤ, dp "2023-11-14T22:13:20Z" =
        some 1700000000000 →
      parseTimestampCandidate dp (.str "2023-11-14T22:13:20Z") =
        some 1700000000) ∧
    (∀ dp : String → Option ℤ,
      parseTimestampCandidate dp (.num 42) = none) ∧
    (∀ dp : String → Option ℤ, dp "not a date" = none →
      parseTimestampCandidate dp (.str "not a date") = none) := by
  have hnum_ms : ∀ (dp : String → Option ℤ) (q : ℚ), q > 10 ^ 12 →
      parseTimestampCandidate dp (.num q) = some ⌊q / 1000⌋ := by
    intro dp q h
    simp only [parseTimestampCandidate, parseNumTs, if_pos h]
  have hnum_s : ∀ (dp : String → Option ℤ) (q : ℚ), ¬q > 10 ^ 12 →
      q ≥ 10 ^ 9 → parseTimestampCandidate dp (.num q) = some ⌊q⌋ := by
    intro dp q h1 h2
    simp only [parseTimestampCandidate, parseNumTs, if_neg h1, if_pos h2]
  have hnum_small : ∀ (dp : String → Option ℤ) (q : ℚ), q < 10 ^ 9 →
      parseTimestampCandidate dp (.num q) = none := by
    intro dp q h
    have h1 : ¬q > 10 ^ 12 := by
      intro hc
      exact absurd (lt_trans h (by norm_num : (10 : ℚ) ^ 9 < 10 ^ 12))
        (lt_asymm hc)
    simp only [parseTimestampCandidate, parseNumTs, if_neg h1,
      if_neg (not_le.mpr h)]
  have hstr_digits : ∀ (dp : String → Option ℤ) (s : String),
      isDigitString s → parseTimestampCandidate dp (.str s) =
        parseTimestampCandidate dp (.num ((s.toNat?.getD 0 : ℕ) : ℚ)) := by
    intro dp s h
    simp only [parseTimestampCandidate, if_pos h]
  have hstr_other : ∀ (dp : String → Option ℤ) (s : String),
      ¬isDigitString s → parseTimestampCandidate dp (.str s) =
        (dp s).map (fun ms => ⌊(ms : ℚ) / 1000⌋) := by
    intro dp s h
    simp only [parseTimestampCandidate, if_neg h]
    cases dp s with
    | none => rfl
    | some ms => rfl
  refine ⟨hnum_ms, hnum_s, hnum_small, hstr_digits, hstr_other,
    fun _ => ⟨rfl, rfl, rfl⟩, ?_, ?_, ?_, ?_, ?_⟩
  · intro dp
    rw [hnum_s dp 1700000000 (by norm_num) (by norm_num)]
    norm_num
  · intro dp
    rw [hnum_ms dp 1700000000000 (by norm_num)]
    norm_num
  · intro dp hdp
    rw [hstr_other dp _ (by decide), hdp]
    norm_num
  · intro dp
    exact hnum_small dp 42 (by norm_num)
  · intro dp hdp
    rw [hstr_other dp _ (by decide), hdp]
    rfl

/-- A concrete `Date.parse` behaviour for the witness: parses exactly the
spec's ISO example. -/
def dpEx : String → Option ℤ :=
  fun s => if s = "2023-11-14T22:13:20Z" then some 1700000000000 else none

/-- C6 witness: the case analysis applied at concrete inputs, discharging
the hypotheses of the millisecond rule, the digit-string rule and the two
`Date.parse`-dependent examples. -/
theorem c6_parse_timestamp_cases_witness :
    ((2000000000000 : ℚ) > 10 ^ 12 ∧
      parseTimestampCandidate dpEx (.num 2000000000000) =
        some ⌊(2000000000000 : ℚ) / 1000⌋) ∧
    (isDigitString "1700000000" = true ∧
      parseTimestampCandidate dpEx (.str "1700000000") =
        parseTimestampCandidate dpEx
          (.num (("1700000000".toNat?.getD 0 : ℕ) : ℚ))) ∧
    (dpEx "2023-11-14T22:13:20Z" = some 1700000000000 ∧
      parseTimestampCandidate dpEx (.str "2023-11-14T22:13:20Z") =
        some 1700000000) ∧
    (dpEx "not a date" = none ∧
      parseTimestampCandidate dpEx (.str "not a date") = none) := by
  obtain ⟨h1, _, _, h4, _, _, _, _, h9, _, h11⟩ := c6_parse_timestamp_cases
  refine ⟨⟨by norm_num, h1 dpEx 2000000000000 (by norm_num)⟩,
    ⟨by decide, h4 dpEx "1700000000" (by decide)⟩,
    ⟨by decide, h9 dpEx (by decide)⟩,
    ⟨by decide, h11 dpEx (by decide)⟩⟩

/-! ## Claim C10: local-clock fallback in `fetchLatestLocation` -/

/-- C10: when a `latest` response resolves with a body whose timestamp
candidate chain parses to nothing and the server `Date` header is missing
or unparsable, `fetchLatestLocation` still resolves with an object, and
its `timestamp` is the local system time `Math.floor(Date.now() / 1000)`.
(The `timestamp` field of the result type is a plain integer: every
successfully returned object carries a non-null integer timestamp by
construction of the fallback chain.) -/
theorem c10_latest_timestamp_local_fallback (dp : String → Option ℤ)
    (deviceId : String) (body : LatestBody) (hdrMs : Option ℤ)
    (nowMs : ℤ) (hdev : ¬deviceId.isEmpty = true)
    (hcand : parseTimestampCandidate dp (firstNonNull
      [body.timestamp, body.ts, body.time, body.server_time, body.date]) =
      none)
    (hhdr : hdrMs = none) :
    fetchLatestLocation dp deviceId (.ok (some body)) hdrMs nowMs =
      .ok (some { device_id := body.device_id, lat := body.lat,
                  lon := body.lon, speed := body.speed,
                  battery := body.battery, sos := body.sos,
                  timestamp := ⌊(nowMs : ℚ) / 1000⌋ }) := by
  rw [fetchLatestLocation, if_neg hdev]
  simp only [hcand, hhdr, extractServerDateHeader]

/-- C10 witness: the fallback theorem at a concrete response whose body
carries no timestamp candidate and no `Date` header. -/
theorem c10_latest_timestamp_local_fallback_witness :
    (¬("esp01").isEmpty = true ∧
      parseTimestampCandidate (fun _ => none) (firstNonNull
        [TsCandidate.null, TsCandidate.null, TsCandidate.null,
          TsCandidate.null, TsCandidate.null]) = none ∧
      (none : Option ℤ) = none) ∧
    fetchLatestLocation (fun _ => none) "esp01"
        (.ok (some { device_id := some "esp01", lat := some (.fin 10),
                     lon := some (.fin 10), speed := none, battery := none,
                     sos := false, timestamp := .null, ts := .null,
                     time := .null, server_time := .null, date := .null }))
        none 1760227200123 =
      .ok (some { device_id := some "esp01", lat := some (.fin 10),
                  lon := some (.fin 10), speed := none, battery := none,
                  sos := false, timestamp := 1760227200 }) := by
  refine ⟨⟨by decide, rfl, rfl⟩, ?_⟩
  have h := c10_latest_timestamp_local_fallback (fun _ => none) "esp01"
    { device_id := some "esp01", lat := some (.fin 10),
      lon := some (.fin 10), speed := none, battery := none,
      sos := false, timestamp := .null, ts := .null, time := .null,
      server_time := .null, date := .null }
    none 1760227200123 (by decide) rfl rfl
  rw [h]
  norm_num

/-- Unfolding of `loadData` on a cycle whose `Promise.all` resolved. -/
theorem loadData_ok (dist : Pt → Pt → ℚ) (env : Env) (prev : UiState)
    (latestOpt : Option LatestOut)
    (htrim : ¬trimEmpty env.deviceId = true)
    (hlat : env.latest = .ok latestOpt) :
    loadData dist env prev =
      { activeDevice := prev.activeDevice
        latestLocation := commitLatest env.deviceId latestOpt
          (cycleCleaned dist env prev.store)
        history := cycleCleaned dist env prev.store
        loading := !env.mounted
        error := none
        store :=
          if cycleCleaned dist env prev.store ≠ [] then
            saveLocalHistory prev.store env.deviceId
              (cycleCleaned dist env prev.store)
          else prev.store } := by
  rw [loadData, if_neg htrim]
  cases henv : env.latest with
  | error msg =>
    rw [henv] at hlat
    exact Except.noConfusion hlat
  | ok lo =>
    rw [henv] at hlat
    injection hlat with hlo
    subst hlo
    rfl

/-! ## Claim C2: transport failures of the history request -/

/-- C2 counterexample: a refresh cycle in which the history request
suffers a transport failure (a thrown fetch error, e.g. the timeout
abort) but the latest-fix request resolves.  `fetchHistory` swallows the
failure and returns `[]`, and the cycle completes with no error and
`loading` reset — a successful cycle with empty history, not a failed
one. -/
theorem c2_counterexample_history_failure_swallowed :
    fetchHistory (fun _ => none) "esp01" (.netError "timeout of 15000ms") =
      [] ∧
    (loadData dist0
      { deviceId := "esp01", latest := .ok none,
        history := fetchHistory (fun _ => none) "esp01"
          (.netError "timeout of 15000ms"),
        mounted := true, nowSec := 0 }
      { activeDevice := "esp01", latestLocation := none, history := [],
        loading := true, error := none, store := fun _ => [] }).error =
      none ∧
    (loadData dist0
      { deviceId := "esp01", latest := .ok none,
        history := fetchHistory (fun _ => none) "esp01"
          (.netError "timeout of 15000ms"),
        mounted := true, nowSec := 0 }
      { activeDevice := "esp01", latestLocation := none, history := [],
        loading := true, error := none, store := fun _ => [] }).loading =
      false := by
  refine ⟨rfl, ?_, ?_⟩
  · rw [loadData, if_neg (by decide : ¬trimEmpty "esp01" = true)]
  · rw [loadData, if_neg (by decide : ¬trimEmpty "esp01" = true)]
    rfl

/-- C2 (amended): only the latest-fix request can fail a cycle.  A
rejected latest-fix request lands the cycle in the failed state with a
human-readable message and cleared display; a history-request transport
failure (non-success status or thrown fetch error) is swallowed by
`fetchHistory`, which returns `[]`, so such a cycle is treated as a
successful cycle with empty fetched history. -/
theorem c2_transport_failure_handling (dist : Pt → Pt → ℚ) (env : Env)
    (prev : UiState) (msg : String)
    (htrim : ¬trimEmpty env.deviceId = true)
    (hlat : env.latest = .error msg) :
    ((loadData dist env prev).error =
        some ("Failed to load data: " ++ msg) ∧
      (loadData dist env prev).latestLocation = none ∧
      (loadData dist env prev).history = []) ∧
    (∀ (dp : String → Option ℤ) (deviceId : String) (code : ℕ),
      fetchHistory dp deviceId (.httpError code) = []) ∧
    (∀ (dp : String → Option ℤ) (deviceId : String) (m : String),
      fetchHistory dp deviceId (.netError m) = []) := by
  refine ⟨?_, ?_, ?_⟩
  · rw [loadData, if_neg htrim, hlat]
    exact ⟨rfl, rfl, rfl⟩
  · intro dp deviceId code
    rw [fetchHistory]
    by_cases h : deviceId.isEmpty = true
    · rw [if_pos h]
    · rw [if_neg h]
  · intro dp deviceId m
    rw [fetchHistory]
    by_cases h : deviceId.isEmpty = true
    · rw [if_pos h]
    · rw [if_neg h]

/-- C2 amended-claim witness: a concrete cycle whose latest-fix request
rejected ends in the failed state. -/
theorem c2_transport_failure_handling_witness :
    (¬trimEmpty "esp01" = true ∧
      (Except.error "Network error" :
        Except String (Option LatestOut)) = .error "Network error") ∧
    (loadData dist0
      { deviceId := "esp01", latest := .error "Network error",
        history := [], mounted := true, nowSec := 0 }
      { activeDevice := "esp01", latestLocation := none, history := [],
        loading := true, error := none, store := fun _ => [] }).error =
      some ("Failed to load data: " ++ "Network error") := by
  refine ⟨⟨by decide, rfl⟩, ?_⟩
  exact (c2_transport_failure_handling dist0
    { deviceId := "esp01", latest := .error "Network error",
      history := [], mounted := true, nowSec := 0 }
    { activeDevice := "esp01", latestLocation := none, history := [],
      loading := true, error := none, store := fun _ => [] }
    "Network error" (by decide) rfl).1.1

/-! ## Claim C3: commit-time active-device check -/

/-- A previous state whose active device differs from the cycle's. -/
def prevOther : UiState :=
  { activeDevice := "esp02", latestLocation := none, history := [],
    loading := true, error := none, store := fun _ => [] }

/-- The environment of a completed cycle started for device `esp01`. -/
def envC3 : Env :=
  { deviceId := "esp01", latest := .ok none, history := [ptOk],
    mounted := true, nowSec := 63360000000 }

/-- C3 counterexample: a cycle that was started for device `esp01`
commits its fetched trajectory even though the active device at commit
time is `esp02` — `loadData` contains no commit-time token check, so the
displayed state is updated with the stale cycle's results. -/
theorem c3_counterexample_stale_commit :
    prevOther.activeDevice ≠ envC3.deviceId ∧
    (loadData dist0 envC3 prevOther).history = [ptOk] ∧
    [ptOk] ≠ prevOther.history := by
  have hch : cycleHistory envC3 prevOther.store = [ptOk] := rfl
  have hclean : cycleCleaned dist0 envC3 prevOther.store = [ptOk] := by
    rw [cycleCleaned, hch]
    exact cleanCore_ptOk
  refine ⟨by decide, ?_, by decide⟩
  rw [loadData_ok dist0 envC3 prevOther none (by decide) rfl]
  exact hclean

/-- C3 (corrected): the code performs no commit-time device check at
all — the committed state is independent of the active device at commit
time.  Formally, `loadData` commutes with replacing the previous state's
`activeDevice`: a cycle's results overwrite the display whether or not
the active device still matches the one the cycle was started for. -/
theorem c3_no_commit_time_device_check (dist : Pt → Pt → ℚ) (env : Env)
    (prev : UiState) (d : String) :
    loadData dist env { prev with activeDevice := d } =
      { loadData dist env prev with activeDevice := d } := by
  rw [loadData, loadData]
  by_cases h : trimEmpty env.deviceId = true
  · rw [if_pos h, if_pos h]
  · rw [if_neg h, if_neg h]
    cases env.latest with
    | error msg => rfl
    | ok latestOpt => rfl

/-! ## Claim C4: cache overwrite on successful cycles -/

/-- The environment of a cycle whose fetched history cleans to `[]`:
the fetched point carries no timestamp, so it survives the coordinate
filter and is dropped by the timestamp filter. -/
def envC4 : Env :=
  { deviceId := "esp01", latest := .ok none, history := [ptBadTs],
    mounted := true, nowSec := 63360000000 }

/-- A previous state holding a non-empty cached trajectory for the
device. -/
def prevWithCache : UiState :=
  { activeDevice := "esp01", latestLocation := none, history := [],
    loading := true, error := none,
    store := fun d => if d = "esp01" then [ptOk] else [] }

/-- C4 counterexample: a cycle that fetches successfully but cleans to
the empty trajectory does *not* overwrite the LocalCache entry — the
prior snapshot survives, because the save is guarded by
`cleaned.length > 0`. -/
theorem c4_counterexample_empty_clean_not_saved :
    cycleCleaned dist0 envC4 prevWithCache.store = [] ∧
    (loadData dist0 envC4 prevWithCache).store "esp01" = [ptOk] ∧
    [ptOk] ≠ ([] : List Pt) := by
  have hch : cycleHistory envC4 prevWithCache.store = [ptBadTs] := rfl
  have hclean : cycleCleaned dist0 envC4 prevWithCache.store = [] := by
    rw [cycleCleaned, hch]
    exact cleanCore_singleton_dropped dist0 {} 63360000000 ptBadTs
      (by decide)
  refine ⟨hclean, ?_, by decide⟩
  rw [loadData_ok dist0 envC4 prevWithCache none (by decide) rfl]
  show (if cycleCleaned dist0 envC4 prevWithCache.store ≠ [] then
      saveLocalHistory prevWithCache.store envC4.deviceId
        (cycleCleaned dist0 envC4 prevWithCache.store)
    else prevWithCache.store) "esp01" = [ptOk]
  rw [hclean, if_neg (fun hc => hc rfl)]
  rfl

/-- C4 (corrected): after a cycle whose requests resolved, the LocalCache
entry for the cycle's device is overwritten with the cleaned trajectory
exactly when that trajectory is non-empty; an empty cleaned trajectory
leaves the entire store untouched (the prior snapshot is not replaced). -/
theorem c4_cache_overwrite_nonempty_only (dist : Pt → Pt → ℚ) (env : Env)
    (prev : UiState) (latestOpt : Option LatestOut)
    (htrim : ¬trimEmpty env.deviceId = true)
    (hlat : env.latest = .ok latestOpt)
    (hdev : ¬env.deviceId.isEmpty = true) :
    (cycleCleaned dist env prev.store ≠ [] →
      (loadData dist env prev).store env.deviceId =
        cycleCleaned dist env prev.store) ∧
    (cycleCleaned dist env prev.store = [] →
      (loadData dist env prev).store = prev.store) := by
  rw [loadData_ok dist env prev latestOpt htrim hlat]
  constructor
  · intro h
    show (if cycleCleaned dist env prev.store ≠ [] then
        saveLocalHistory prev.store env.deviceId
          (cycleCleaned dist env prev.store)
      else prev.store) env.deviceId = cycleCleaned dist env prev.store
    rw [if_pos h, saveLocalHistory, if_neg hdev]
    simp
  · intro h
    show (if cycleCleaned dist env prev.store ≠ [] then
        saveLocalHistory prev.store env.deviceId
          (cycleCleaned dist env prev.store)
      else prev.store) = prev.store
    rw [if_neg (fun hc => hc h)]

/-- C4 amended-claim witness: a concrete successful cycle with non-empty
cleaned trajectory overwrites the cache entry for its device. -/
theorem c4_cache_overwrite_nonempty_only_witness :
    (¬trimEmpty "esp01" = true ∧
      (Except.ok none : Except String (Option LatestOut)) = .ok none ∧
      ¬("esp01").isEmpty = true ∧
      cycleCleaned dist0 envC3 prevOther.store ≠ []) ∧
    (loadData dist0 envC3 prevOther).store "esp01" =
      cycleCleaned dist0 envC3 prevOther.store := by
  have hclean : cycleCleaned dist0 envC3 prevOther.store = [ptOk] := by
    rw [cycleCleaned, show cycleHistory envC3 prevOther.store = [ptOk]
      from rfl]
    exact cleanCore_ptOk
  have hne : cycleCleaned dist0 envC3 prevOther.store ≠ [] := by
    rw [hclean]
    exact fun hc => List.noConfusion hc
  exact ⟨⟨by decide, rfl, by decide, hne⟩,
    (c4_cache_overwrite_nonempty_only dist0 envC3 prevOther none
      (by decide) rfl (by decide)).1 hne⟩

end MMTT
